import Mathlib

/-
Verification of the GaGe digitizer continuous streaming pipeline
(src/GaGe_Python/mp_stream.py) against its natural-language design notes.

The development shallowly embeds the observable behavior of the code:

* `DoAnalysis` (mp_stream.py, def DoAnalysis): the per-buffer analysis
  entry point, embedded as a pure transformer on `DAState`, which collects
  the shared result sink (`mp_arrays`), the stop event, and the two shared
  counters (`mp_total_data`, `mp_loop_count`).  The stop event is modeled
  both as a boolean flag (`stopSet`) and as a count of invocations of the
  set operation (`stopCalls`), so that idempotent re-raising is visible.
  `DoAnalysisChecked` refines the same function with its runtime failure
  paths (resize of the non-owning frombuffer view, zero divisors, sink
  slice mismatches), returning none for a call that raises; the total
  `DoAnalysis` agrees with it on every completing call
  (`doAnalysisChecked_agrees`).
* the save-mode session (`runSave` / `saveSession`): the sequence of
  `DoAnalysis` calls the streaming loop performs in mode "save", with
  loop counts 1, 2, ... and the sink allocated as zeros of the configured
  length, exactly as the dispatch block of `stream` does at loop count 1.
* the main streaming loop of `stream` (`loopIter` / `runLoop`): buffer
  rotation, worker slot rotation, the single shared work buffer, the
  cumulative byte counter, and the `StreamInfo` record whose fields the
  loop initializes (lines assigning stream_info.*) and, apart from
  WorkBuffer, never touches again.  Device transfers are abstracted by a
  function giving the data delivered at each iteration.
* the worker slot protocol (`slotTrace` / `replayOk`): the trace of
  join and submit operations on the thread slots, replayed against a
  busy-flag table to check join-before-submit.
* the lifecycle event trace (`streamLifeTrace`): the order in which the
  code sets ready/started, observes stop, frees buffers, drains the last
  buffer, writes the result file and sets exit on a normal run.
* the allocation-failure cleanup paths (`allocFailCleanup`) of the four
  GetStreamingBuffer calls, as the list of teardown actions performed.
* the transfer status check (`transferCheck`) after TransferStreamingData,
  and the post-loop finalization (`postLoopFinalize`) that reads the
  local variable `mode`, modeled as an Option to capture the Python
  unbound-local failure when the dispatch branch never ran.

Machine integers are modeled as Nat/Int; none of the embedded quantities
overflow in the source (Python integers are unbounded).
-/

/-- Overwrite the slice of `X` starting at `s` with `v`, as the numpy
assignment `X[s : s + len(v)] = v` does for an in-bounds slice. -/
def setSlice (X : List Int) (s : Nat) (v : List Int) : List Int :=
  X.take s ++ (v ++ X.drop (s + v.length))

/-- Column sums of the first `n * p` elements of `buf` viewed as an
`n` by `p` matrix: the embedding of `np.sum(buffer.resize((n, p)), axis=0)`. -/
def colSums (p n : Nat) (buf : List Int) : List Int :=
  (List.range p).map fun j => ((List.range n).map fun i => buf.getD (i * p + j) 0).sum

/-- Shared state visible to `DoAnalysis`: the result sink (`mp_arrays`),
the stop event (as a flag plus a count of set invocations), and the two
shared counters written at the end of the function. -/
structure DAState where
  sink : List Int
  stopSet : Bool
  stopCalls : Nat
  mpTotalData : Int
  mpLoopCount : Nat
deriving DecidableEq

/-- The analysis mode tag together with its mode-specific arguments, as
unpacked from `args` inside `DoAnalysis`. -/
inductive DAMode where
  | average (ppifg : Nat)
  | saveAverage (ppifg savebuffersize : Nat)
  | save (savebuffersize : Nat)
  | passthrough
deriving DecidableEq

/-- The effect of `stream_stop_event.set()`: the flag becomes true and the
invocation count increases. -/
def setStop (st : DAState) : DAState :=
  { st with stopSet := true, stopCalls := st.stopCalls + 1 }

/-- The unconditional tail of `DoAnalysis`: write the shared cumulative
byte counter and the shared loop counter. -/
def finishCounters (k : Nat) (g : Int) (st : DAState) : DAState :=
  { sink := st.sink, stopSet := st.stopSet, stopCalls := st.stopCalls
    mpTotalData := g, mpLoopCount := k }

/-- Embedding of `DoAnalysis(loop_count, g_cardTotalData, workbuffer, ...)`.
`k` is the loop count, `g` the value of `g_cardTotalData[0]`, `buffer` the
work buffer as int16 samples, `u` the `loop_count_update` keyword. The
save modes return early, skipping `finishCounters`, exactly where the
source returns after re-setting the stop event.  This total version
describes the completing, non-raising executions (where the reshape and
the sink writes succeed); `DoAnalysisChecked` below adds the runtime
failure paths of the source and agrees with this function on every call
that completes. -/
def DoAnalysis (k : Nat) (g : Int) (buffer : List Int) :
    DAMode → Nat → DAState → DAState
  | DAMode.average ppifg, u, st =>
    let st1 :=
      if k % u = 0 then
        { st with sink := (colSums ppifg (buffer.length / ppifg) buffer).take st.sink.length }
      else st
    finishCounters k g st1
  | DAMode.saveAverage ppifg sbs, _u, st =>
    let st1 := if k * ppifg = sbs then setStop st else st
    if sbs < k * ppifg then setStop st1
    else
      finishCounters k g
        { st1 with
          sink := setSlice st1.sink ((k - 1) * ppifg)
                    (colSums ppifg (buffer.length / ppifg) buffer) }
  | DAMode.save sbs, _u, st =>
    let st1 := if k * buffer.length = sbs then setStop st else st
    if sbs < k * buffer.length then setStop st1
    else
      finishCounters k g
        { st1 with sink := setSlice st1.sink ((k - 1) * buffer.length) buffer }
  | DAMode.passthrough, u, st =>
    let st1 :=
      if k % u = 0 then { st with sink := buffer.take st.sink.length } else st
    finishCounters k g st1

/-- Embedding of `DoAnalysis` including its runtime failure paths, with
`none` for a call that raises before returning.  `buffer` is the
`np.frombuffer` view of the work buffer, which does not own its data, so
`buffer.resize((N, ppifg))` raises ValueError unless the reshape keeps
the total element count, that is unless `ppifg` divides the buffer
length; `loop_count % loop_count_update` raises ZeroDivisionError when
the update interval is zero, as does `buffer.size // ppifg` when the
period is zero; and the sink slice assignments raise ValueError on a
length mismatch or an out-of-range slice (a zero loop count makes the
save-mode slice start negative).  The checks appear in the statement
order of the source; a raising call terminates without reaching the
final counter updates, so no updated state is produced. -/
def DoAnalysisChecked (k : Nat) (g : Int) (buffer : List Int) :
    DAMode → Nat → DAState → Option DAState
  | DAMode.average ppifg, u, st =>
    if u = 0 then none
    else if k % u = 0 then
      if ppifg = 0 then none
      else if ¬ ppifg ∣ buffer.length then none
      else if ppifg < st.sink.length then none
      else
        some (finishCounters k g
          { st with
            sink := (colSums ppifg (buffer.length / ppifg) buffer).take
              st.sink.length })
    else some (finishCounters k g st)
  | DAMode.saveAverage ppifg sbs, _u, st =>
    if ppifg = 0 then none
    else
      let st1 := if k * ppifg = sbs then setStop st else st
      if sbs < k * ppifg then some (setStop st1)
      else if k = 0 then none
      else if ¬ ppifg ∣ buffer.length then none
      else if st.sink.length < k * ppifg then none
      else
        some (finishCounters k g
          { st1 with
            sink := setSlice st1.sink ((k - 1) * ppifg)
              (colSums ppifg (buffer.length / ppifg) buffer) })
  | DAMode.save sbs, _u, st =>
    let size := buffer.length
    let st1 := if k * size = sbs then setStop st else st
    if sbs < k * size then some (setStop st1)
    else if k = 0 ∧ 0 < size then none
    else if st.sink.length < k * size then none
    else
      some (finishCounters k g
        { st1 with sink := setSlice st1.sink ((k - 1) * size) buffer })
  | DAMode.passthrough, u, st =>
    if u = 0 then none
    else if k % u = 0 then
      if buffer.length < st.sink.length then none
      else
        some (finishCounters k g { st with sink := buffer.take st.sink.length })
    else some (finishCounters k g st)

/-- Does this call take the early-return path of a save mode (the path
that skips the final counter updates)? -/
def skipsCounters (k bufLen : Nat) : DAMode → Bool
  | DAMode.saveAverage ppifg sbs => decide (sbs < k * ppifg)
  | DAMode.save sbs => decide (sbs < k * bufLen)
  | _ => false

/-- The sequence of `DoAnalysis` calls made for mode "save" during a
session: loop count `k` for the buffer filled by transfer `k - 1`. -/
def runSave (sbs : Nat) : Nat → List (List Int) → DAState → DAState
  | _, [], st => st
  | k, buf :: rest, st =>
      runSave sbs (k + 1) rest (DoAnalysis k 0 buf (DAMode.save sbs) 1 st)

/-- A whole save-raw session: the sink starts as `np.zeros(sbs)` (allocated
by the dispatch block at loop count 1) and the calls run with loop counts
1, 2, ... over the transferred buffers in order. -/
def saveSession (sbs : Nat) (bufs : List (List Int)) : DAState :=
  runSave sbs 1 bufs
    { sink := List.replicate sbs 0, stopSet := false, stopCalls := 0
      mpTotalData := 0, mpLoopCount := 0 }

/-- The `StreamInfo` record of mp_stream.py with its `__slots__` fields.
`TimeStamp` is the diagnostic timestamp array. -/
structure StreamInfo where
  WorkBuffer : List Int
  TimeStamp : List Int
  BufferSize : Nat
  SegmentSize : Nat
  TailSize : Nat
  LeftOverSize : Nat
  BytesToEndSegment : Nat
  BytesToEndTail : Nat
  DeltaTime : Int
  LastTimeStamp : Int
  Segment : Nat
  SegmentCountDown : Nat
  SplitTail : Bool
deriving DecidableEq

/-- The initialization of `stream_info` in `stream` (the block of
assignments right before the while loop). -/
def initStreamInfo (bufferSizeBytes segmentSizeInBytes segmentTailSizeInBytes
    segmentCount workBufLen : Nat) : StreamInfo :=
  { WorkBuffer := List.replicate workBufLen 0
    TimeStamp := []
    BufferSize := bufferSizeBytes
    SegmentSize := segmentSizeInBytes
    TailSize := segmentTailSizeInBytes
    LeftOverSize := 0
    BytesToEndSegment := segmentSizeInBytes
    BytesToEndTail := segmentTailSizeInBytes
    DeltaTime := 0
    LastTimeStamp := 0
    Segment := 1
    SegmentCountDown := segmentCount
    SplitTail := false }

/-- The locals of the streaming while loop that the claims observe:
the cursor, the two rotation indices, the dispatch guard, the stream
info record, the cumulative byte counter, and traces of the dispatches
(slot, loop count argument, submitted work-buffer contents) and of the
transfer buffer indices targeted. -/
structure LoopState where
  loopCount : Nat
  bufferCount : Nat
  threadCount : Nat
  workBufferActive : Bool
  info : StreamInfo
  gCardTotalData : Int
  dispatches : List (Nat × Nat × List Int)
  transferTargets : List Nat
deriving DecidableEq

/-- Loop entry state: `loop_count = 0`, `buffer_count = 0`,
`thread_count = 0`, `work_buffer_active = False`, counters zero. -/
def initLoopState (si : StreamInfo) : LoopState :=
  { loopCount := 0, bufferCount := 0, threadCount := 0
    workBufferActive := false, info := si, gCardTotalData := 0
    dispatches := [], transferTargets := [] }

/-- One happy-path pass of the while body of `stream`: select buffer
`buffer_count`, issue the transfer, dispatch the previous work buffer if
active, account the transferred bytes, copy the freshly filled buffer
into the work buffer, then advance `loop_count`, `buffer_count` and
`thread_count`.  `M` is the number of worker threads, `td k` the samples
delivered by the transfer of iteration `k`, `bt k` the byte count the
transfer status reports there. -/
def loopIter (M : Nat) (td : Nat → List Int) (bt : Nat → Int)
    (s : LoopState) : LoopState :=
  let dispatches :=
    if s.workBufferActive then
      s.dispatches ++ [(s.threadCount, s.loopCount, s.info.WorkBuffer)]
    else s.dispatches
  let lc := s.loopCount + 1
  { loopCount := lc
    bufferCount := lc % 4
    threadCount := (lc - 1) % M
    workBufferActive := true
    info := { s.info with WorkBuffer := td s.loopCount }
    gCardTotalData := s.gCardTotalData + bt s.loopCount
    dispatches := dispatches
    transferTargets := s.transferTargets ++ [s.bufferCount] }

/-- `K` iterations of the streaming loop from the entry state. -/
def runLoop (M : Nat) (td : Nat → List Int) (bt : Nat → Int)
    (si : StreamInfo) : Nat → LoopState
  | 0 => initLoopState si
  | K + 1 => loopIter M td bt (runLoop M td bt si K)

/-- Operations performed on a worker slot. -/
inductive SlotEvent where
  | join (i : Nat)
  | submit (i : Nat)
deriving DecidableEq

/-- The dispatch block for slot `s`: join first when the slot holds a
task (`active_threads[thread_count]`), then start the new thread. -/
def dispatchStep (busy : List Bool) (s : Nat) : List SlotEvent :=
  (if busy.getD s false then [SlotEvent.join s] else []) ++ [SlotEvent.submit s]

/-- The slot events generated by a sequence of dispatches, threading the
`active_threads` table exactly as the code does. -/
def slotTrace (busy : List Bool) : List Nat → List SlotEvent
  | [] => []
  | s :: rest => dispatchStep busy s ++ slotTrace (busy.set s true) rest

/-- The `active_threads` table after a sequence of dispatches. -/
def applySlots (busy : List Bool) : List Nat → List Bool
  | [] => busy
  | s :: rest => applySlots (busy.set s true) rest

/-- Replay a slot event trace against a busy table; `false` when some
submit targets a slot whose previous task has not been joined. -/
def replayOk : List Bool → List SlotEvent → Bool
  | _, [] => true
  | busy, SlotEvent.join i :: rest => replayOk (busy.set i false) rest
  | busy, SlotEvent.submit i :: rest =>
      !(busy.getD i false) && replayOk (busy.set i true) rest

/-- The slot event trace of a whole session with `M` worker slots and `K`
loop iterations: iterations 1 to K-1 dispatch to slot `(j-1) % M`, the
final synchronous drain dispatches to `(K-1) % M` and joins it. -/
def streamSlotTrace (M K : Nat) : List SlotEvent :=
  slotTrace (List.replicate M false) ((List.range K).map fun j => j % M)
    ++ [SlotEvent.join ((K - 1) % M)]

/-- Lifecycle milestones of a streaming session. -/
inductive LifeEvent where
  | readySet
  | startedSet
  | transferIssued (k : Nat)
  | dispatched (k : Nat)
  | stopObserved (k : Nat)
  | buffersFreed
  | finalDrained
  | fileSaved
  | exitSet
deriving DecidableEq

/-- The lifecycle events of loop iteration `k`: issue the transfer,
dispatch the previous buffer (skipped on the very first iteration), and
observe the stop event at the end of the body. -/
def iterEvents (k : Nat) : List LifeEvent :=
  LifeEvent.transferIssued k ::
    ((if k = 0 then [] else [LifeEvent.dispatched k]) ++ [LifeEvent.stopObserved k])

/-- Occurrence count of an event in a trace. -/
def countEv (e : LifeEvent) : List LifeEvent → Nat
  | [] => 0
  | x :: xs => (if x = e then 1 else 0) + countEv e xs

/-- The lifecycle trace of a normal run of `stream` with `K` loop
iterations: ready is set after buffers and stream info are prepared,
started after StartCapture, then the loop runs, then buffers are freed,
the last work buffer is drained synchronously, the result file is written
in the save modes, and exit is set last. -/
def streamLifeTrace (K : Nat) (sv : Bool) : List LifeEvent :=
  ([LifeEvent.readySet, LifeEvent.startedSet]
      ++ List.flatten ((List.range K).map iterEvents)
      ++ [LifeEvent.buffersFreed, LifeEvent.finalDrained]
      ++ (if sv then [LifeEvent.fileSaved] else []))
    ++ [LifeEvent.exitSet]

/-- Teardown actions of the buffer-allocation error paths. -/
inductive CleanupAction where
  | freeBuffer (i : Nat)
  | freeSystem
  | setErrorSignal
deriving DecidableEq

/-- The cleanup performed when `GetStreamingBuffer` returns an error for
buffer `k` (k = 1..4): the previously allocated buffers are freed in the
order the source lists them, then the system handle is freed, then the
error event is set. -/
def allocFailCleanup : Nat → List CleanupAction
  | 1 => [CleanupAction.freeSystem, CleanupAction.setErrorSignal]
  | 2 => [CleanupAction.freeBuffer 1,
          CleanupAction.freeSystem, CleanupAction.setErrorSignal]
  | 3 => [CleanupAction.freeBuffer 1, CleanupAction.freeBuffer 2,
          CleanupAction.freeSystem, CleanupAction.setErrorSignal]
  | 4 => [CleanupAction.freeBuffer 1, CleanupAction.freeBuffer 2,
          CleanupAction.freeBuffer 3,
          CleanupAction.freeSystem, CleanupAction.setErrorSignal]
  | _ => []

/-- The cleanup order the claim describes: the k-1 already-allocated
buffers released in reverse-acquisition order (most recently acquired
first) before the handle is freed, with the error signal set. -/
def claimedAllocFailCleanup (k : Nat) : List CleanupAction :=
  ((List.range (k - 1)).reverse.map fun i => CleanupAction.freeBuffer (i + 1))
    ++ [CleanupAction.freeSystem, CleanupAction.setErrorSignal]

/-- Outcome of a status check in the loop body: does the loop terminate,
and is the error event set on this path? -/
structure XferOutcome where
  breakLoop : Bool
  errorSet : Bool
deriving DecidableEq

/-- The distinguished stream-completed status of the driver. -/
def CS_STM_COMPLETED : Int := -803

/-- The check after `TransferStreamingData`: a negative status equal to
`CS_STM_COMPLETED` is passed over; any other negative status prints the
error string and breaks out of the loop.  Neither branch touches the
error event. -/
def transferCheck (status : Int) : XferOutcome :=
  if status < 0 then
    if status = CS_STM_COMPLETED then { breakLoop := false, errorSet := false }
    else { breakLoop := true, errorSet := false }
  else { breakLoop := false, errorSet := false }

/-- The branch taken when `GetStreamingTransferStatus` returns an error
code instead of a tuple: `done` is set and the error event is set. -/
def statusPhaseFailure (_code : Int) : XferOutcome :=
  { breakLoop := true, errorSet := true }

/-- Mode tag as carried by the local variable `mode` of `stream`. -/
inductive ModeTag where
  | average
  | saveAverage
  | save
  | passthrough
deriving DecidableEq

/-- The locals of `stream` that the post-loop finalization reads: `mode`
is assigned only inside the dispatch branch, so it is unbound (`none`)
when the loop exits before any dispatch. -/
structure PostLoopLocals where
  mode : Option ModeTag
  exitEventSet : Bool
deriving DecidableEq

/-- The runtime failure message for reading an unassigned local. -/
def unboundLocalMsg : String :=
  "UnboundLocalError: local variable mode referenced before assignment"

/-- Loop exit during the very first iteration: when the transfer check
breaks at loop count 0, the dispatch branch has never run, so `mode` is
unbound and the exit event is still clear. -/
def firstIterExit (status : Int) : Option PostLoopLocals :=
  if (transferCheck status).breakLoop then
    some { mode := none, exitEventSet := false }
  else none

/-- The post-loop finalization: it evaluates `mode == "save" or ...`,
which reads the local `mode`; with `mode` unbound the function raises and
terminates abnormally before the exit event is ever set, otherwise the
result file is written as needed and the exit event is set. -/
def postLoopFinalize (l : PostLoopLocals) : Except String PostLoopLocals :=
  match l.mode with
  | none => Except.error unboundLocalMsg
  | some _ => Except.ok { l with exitEventSet := true }

-- ===================================================================
-- helper lemmas
-- ===================================================================

theorem finishCounters_mpTotalData (k : Nat) (g : Int) (st : DAState) :
    (finishCounters k g st).mpTotalData = g := rfl

theorem finishCounters_mpLoopCount (k : Nat) (g : Int) (st : DAState) :
    (finishCounters k g st).mpLoopCount = k := rfl

theorem doAnalysis_save_skip_state (k u sbs : Nat) (g : Int) (buf : List Int)
    (st : DAState) (h : sbs < k * buf.length) :
    DoAnalysis k g buf (DAMode.save sbs) u st
      = { st with stopSet := true, stopCalls := st.stopCalls + 1 } := by
  simp only [DoAnalysis]
  rw [if_neg (Nat.ne_of_gt h), if_pos h]
  rfl

theorem doAnalysis_saveAverage_skip_state (k u ppifg sbs : Nat) (g : Int)
    (buf : List Int) (st : DAState) (h : sbs < k * ppifg) :
    DoAnalysis k g buf (DAMode.saveAverage ppifg sbs) u st
      = { st with stopSet := true, stopCalls := st.stopCalls + 1 } := by
  simp only [DoAnalysis]
  rw [if_neg (Nat.ne_of_gt h), if_pos h]
  rfl

theorem doAnalysis_save_sink_write (k u sbs : Nat) (g : Int) (buf : List Int)
    (st : DAState) (h : ¬ sbs < k * buf.length) :
    (DoAnalysis k g buf (DAMode.save sbs) u st).sink
      = setSlice st.sink ((k - 1) * buf.length) buf := by
  simp only [DoAnalysis]
  rw [if_neg h]
  by_cases he : k * buf.length = sbs <;> simp [he, setStop, finishCounters]

theorem doAnalysis_save_sink_skip (k u sbs : Nat) (g : Int) (buf : List Int)
    (st : DAState) (h : sbs < k * buf.length) :
    (DoAnalysis k g buf (DAMode.save sbs) u st).sink = st.sink := by
  rw [doAnalysis_save_skip_state k u sbs g buf st h]

theorem doAnalysisChecked_agrees (k u : Nat) (g : Int) (buf : List Int)
    (mode : DAMode) (st st2 : DAState)
    (h2 : DoAnalysisChecked k g buf mode u st = some st2) :
    st2 = DoAnalysis k g buf mode u st := by
  cases mode with
  | average p =>
    by_cases hu : u = 0
    · simp [DoAnalysisChecked, hu] at h2
    · by_cases hk : k % u = 0
      · by_cases hp : p = 0
        · simp [DoAnalysisChecked, hu, hk, hp] at h2
        · by_cases hd : p ∣ buf.length
          · by_cases hl : p < st.sink.length
            · simp [DoAnalysisChecked, hu, hk, hp, hd, hl] at h2
            · simp [DoAnalysisChecked, hu, hk, hp, hd, hl] at h2
              rw [← h2]
              simp [DoAnalysis, hk]
          · simp [DoAnalysisChecked, hu, hk, hp, hd] at h2
      · simp [DoAnalysisChecked, hu, hk] at h2
        rw [← h2]
        simp [DoAnalysis, hk]
  | passthrough =>
    by_cases hu : u = 0
    · simp [DoAnalysisChecked, hu] at h2
    · by_cases hk : k % u = 0
      · by_cases hl : buf.length < st.sink.length
        · simp [DoAnalysisChecked, hu, hk, hl] at h2
        · simp [DoAnalysisChecked, hu, hk, hl] at h2
          rw [← h2]
          simp [DoAnalysis, hk]
      · simp [DoAnalysisChecked, hu, hk] at h2
        rw [← h2]
        simp [DoAnalysis, hk]
  | save sbs =>
    by_cases hns : sbs < k * buf.length
    · simp [DoAnalysisChecked, hns] at h2
      rw [← h2]
      simp [DoAnalysis, hns]
    · by_cases hz : k = 0 ∧ 0 < buf.length
      · simp [DoAnalysisChecked, hns, hz] at h2
      · by_cases hl : st.sink.length < k * buf.length
        · simp [DoAnalysisChecked, hns, hz, hl] at h2
        · simp [DoAnalysisChecked, hns, hz, hl] at h2
          rw [← h2]
          simp [DoAnalysis, hns]
  | saveAverage p sbs =>
    by_cases hp : p = 0
    · simp [DoAnalysisChecked, hp] at h2
    · by_cases hns : sbs < k * p
      · simp [DoAnalysisChecked, hp, hns] at h2
        rw [← h2]
        simp [DoAnalysis, hns]
      · by_cases hz : k = 0
        · simp [DoAnalysisChecked, hp, hns, hz] at h2
        · by_cases hd : p ∣ buf.length
          · by_cases hl : st.sink.length < k * p
            · simp [DoAnalysisChecked, hp, hns, hz, hd, hl] at h2
            · simp [DoAnalysisChecked, hp, hns, hz, hd, hl] at h2
              rw [← h2]
              simp [DoAnalysis, hns]
          · simp [DoAnalysisChecked, hp, hns, hz, hd] at h2

theorem setSlice_length (X v : List Int) (s : Nat) (h : s + v.length ≤ X.length) :
    (setSlice X s v).length = X.length := by
  simp [setSlice]
  omega

theorem setSlice_take (X v : List Int) (s : Nat) (h : s + v.length ≤ X.length) :
    (setSlice X s v).take (s + v.length) = X.take s ++ v := by
  have hs : s ≤ X.length := le_trans (Nat.le_add_right s v.length) h
  rw [setSlice, List.take_append_eq_append_take, List.take_take,
    Nat.min_eq_right (Nat.le_add_right s v.length),
    List.length_take, Nat.min_eq_left hs, Nat.add_sub_cancel_left,
    List.take_append_eq_append_take, List.take_length, Nat.sub_self,
    List.take_zero, List.append_nil]

theorem runSave_sink_skip (b sbs : Nat) :
    ∀ (bufs : List (List Int)) (k : Nat) (st : DAState),
      (∀ buf ∈ bufs, buf.length = b) → sbs < k * b →
      (runSave sbs k bufs st).sink = st.sink := by
  intro bufs
  induction bufs with
  | nil => intro k st _ _; rfl
  | cons buf rest ih =>
    intro k st hlen hlt
    have hbuf : buf.length = b := hlen buf (List.mem_cons_self buf rest)
    rw [runSave,
      ih (k + 1) _ (fun x hx => hlen x (List.mem_cons_of_mem buf hx))
        (lt_of_lt_of_le hlt (Nat.mul_le_mul_right b (Nat.le_succ k)))]
    exact doAnalysis_save_sink_skip k 1 sbs 0 buf st (by rw [hbuf]; exact hlt)

theorem runSave_sink_fill (b m : Nat) (hb : 1 ≤ b) :
    ∀ (bufs : List (List Int)) (j : Nat) (st : DAState),
      (∀ buf ∈ bufs, buf.length = b) → j ≤ m → st.sink.length = m * b →
      m ≤ j + bufs.length →
      (runSave (m * b) (j + 1) bufs st).sink
        = st.sink.take (j * b) ++ bufs.flatten.take ((m - j) * b) := by
  intro bufs
  induction bufs with
  | nil =>
    intro j st _ hjm hsink hm
    have hj : j = m := le_antisymm hjm (by simpa using hm)
    subst hj
    show st.sink = st.sink.take (j * b) ++ List.take ((j - j) * b) List.nil.flatten
    rw [Nat.sub_self, Nat.zero_mul, List.take_zero, List.append_nil, ← hsink,
      List.take_length]
  | cons buf rest ih =>
    intro j st hlen hjm hsink hm
    have hbuf : buf.length = b := hlen buf (List.mem_cons_self buf rest)
    have hrest : ∀ x ∈ rest, x.length = b :=
      fun x hx => hlen x (List.mem_cons_of_mem buf hx)
    rw [runSave]
    have hsucc : (j + 1) * b = j * b + b := by ring
    by_cases hj : j = m
    · subst hj
      have hgt : j * b < (j + 1) * b := by omega
      have hgt2 : j * b < (j + 2) * b := by
        have h2 : (j + 2) * b = j * b + b + b := by ring
        omega
      rw [runSave_sink_skip b (j * b) rest (j + 2) _ hrest hgt2,
        doAnalysis_save_sink_skip (j + 1) 1 (j * b) 0 buf st
          (by rw [hbuf]; exact hgt),
        Nat.sub_self, Nat.zero_mul, List.take_zero, List.append_nil, ← hsink,
        List.take_length]
    · have hjlt : j < m := lt_of_le_of_ne hjm hj
      have hle : (j + 1) * b ≤ m * b := Nat.mul_le_mul_right b hjlt
      have hwr : ¬ (m * b < (j + 1) * buf.length) := by rw [hbuf]; omega
      have hbound : j * b + buf.length ≤ st.sink.length := by
        rw [hbuf, hsink]; omega
      have hsink2 :
          (DoAnalysis (j + 1) 0 buf (DAMode.save (m * b)) 1 st).sink
            = setSlice st.sink (j * b) buf := by
        have hw := doAnalysis_save_sink_write (j + 1) 1 (m * b) 0 buf st hwr
        simpa [hbuf] using hw
      have hlen2 :
          (DoAnalysis (j + 1) 0 buf (DAMode.save (m * b)) 1 st).sink.length
            = m * b := by
        rw [hsink2, setSlice_length st.sink buf (j * b) hbound, hsink]
      have ihres := ih (j + 1) (DoAnalysis (j + 1) 0 buf (DAMode.save (m * b)) 1 st)
        hrest hjlt hlen2 (by simp only [List.length_cons] at hm; omega)
      rw [ihres, hsink2]
      have harg : (j + 1) * b = j * b + buf.length := by rw [hbuf]; omega
      rw [harg, setSlice_take st.sink buf (j * b) hbound]
      have hsplit : (buf :: rest).flatten.take ((m - j) * b)
          = buf ++ rest.flatten.take ((m - (j + 1)) * b) := by
        have h1 : m - j = (m - (j + 1)) + 1 := by omega
        have h2 : buf.length ≤ (m - j) * b := by
          rw [hbuf]
          have h3 : 1 * b ≤ (m - j) * b := Nat.mul_le_mul_right b (by omega)
          have h4 : 1 * b = b := Nat.one_mul b
          omega
        have h5 : (m - j) * b - buf.length = (m - (j + 1)) * b := by
          have h6 : (m - j) * b = (m - (j + 1)) * b + b := by rw [h1]; ring
          rw [hbuf]
          omega
        rw [List.flatten_cons, List.take_append_eq_append_take,
          List.take_of_length_le h2, h5]
      rw [hsplit, List.append_assoc]

theorem runLoop_proj (M : Nat) (td : Nat → List Int) (bt : Nat → Int)
    (si : StreamInfo) :
    ∀ K : Nat,
      (runLoop M td bt si K).loopCount = K ∧
      (runLoop M td bt si K).bufferCount = K % 4 ∧
      (runLoop M td bt si K).threadCount = (K - 1) % M ∧
      (runLoop M td bt si K).workBufferActive = !(K == 0) ∧
      (runLoop M td bt si K).info
        = { si with WorkBuffer := if K = 0 then si.WorkBuffer else td (K - 1) } ∧
      (runLoop M td bt si K).dispatches
        = (List.range (K - 1)).map (fun i => (i % M, i + 1, td i)) ∧
      (runLoop M td bt si K).transferTargets
        = (List.range K).map (fun j => j % 4) := by
  intro K
  induction K with
  | zero =>
    refine ⟨rfl, rfl, by simp [runLoop, initLoopState], rfl, rfl, rfl, rfl⟩
  | succ n ih =>
    obtain ⟨h1, h2, h3, h4, h5, h6, h7⟩ := ih
    have hstep : runLoop M td bt si (n + 1)
        = loopIter M td bt (runLoop M td bt si n) := rfl
    have hwb : (runLoop M td bt si n).info.WorkBuffer
        = if n = 0 then si.WorkBuffer else td (n - 1) := by rw [h5]
    refine ⟨?_, ?_, ?_, ?_, ?_, ?_, ?_⟩
    · rw [hstep]; simp [loopIter, h1]
    · rw [hstep]; simp [loopIter, h1]
    · rw [hstep]; simp [loopIter, h1]
    · rw [hstep]; simp [loopIter]
    · rw [hstep]
      simp only [loopIter, h1, h5]
      simp
    · rw [hstep]
      cases n with
      | zero => simp [loopIter, h4, h6]
      | succ p =>
        simp only [loopIter, h4, h6, h1, h3, hwb]
        rw [show p + 1 + 1 - 1 = p + 1 from rfl, List.range_succ,
          List.map_append]
        simp
    · rw [hstep]
      simp only [loopIter, h2, h7]
      rw [List.range_succ, List.map_append]
      simp

theorem getD_set_false (l : List Bool) (i : Nat) :
    (l.set i false).getD i false = false := by
  induction l generalizing i with
  | nil => simp [List.getD]
  | cons a t ih =>
    cases i with
    | zero => rfl
    | succ n => simpa using ih n

theorem replay_slotTrace :
    ∀ (slots : List Nat) (busy : List Bool) (rest : List SlotEvent),
      replayOk busy (slotTrace busy slots ++ rest)
        = replayOk (applySlots busy slots) rest := by
  intro slots
  induction slots with
  | nil => intro busy rest; rfl
  | cons s ss ih =>
    intro busy rest
    show replayOk busy
        ((dispatchStep busy s ++ slotTrace (busy.set s true) ss) ++ rest)
      = replayOk (applySlots (busy.set s true) ss) rest
    rw [List.append_assoc]
    by_cases h : busy.getD s false
    · simp only [dispatchStep, h, if_true, List.cons_append, List.nil_append,
        replayOk, getD_set_false, Bool.not_false, Bool.true_and, List.set_set]
      exact ih (busy.set s true) rest
    · have hb : busy.getD s false = false := by
        revert h; cases busy.getD s false <;> simp
      simp only [dispatchStep, hb, Bool.false_eq_true, if_false,
        List.cons_append, List.nil_append, replayOk, Bool.not_false,
        Bool.true_and]
      exact ih (busy.set s true) rest

theorem countEv_append (e : LifeEvent) :
    ∀ l₁ l₂ : List LifeEvent,
      countEv e (l₁ ++ l₂) = countEv e l₁ + countEv e l₂ := by
  intro l₁ l₂
  induction l₁ with
  | nil => simp [countEv]
  | cons x xs ih => simp [countEv, ih, Nat.add_assoc]

theorem countEv_iter_stop (j k : Nat) :
    countEv (LifeEvent.stopObserved k) (iterEvents j)
      = if j = k then 1 else 0 := by
  by_cases hjk : j = k
  · subst hjk
    by_cases hj : j = 0 <;> simp [iterEvents, countEv, countEv_append, hj]
  · by_cases hj : j = 0 <;>
      simp [iterEvents, countEv, countEv_append, hj, hjk]

theorem countEv_iter_exit (j : Nat) :
    countEv LifeEvent.exitSet (iterEvents j) = 0 := by
  by_cases hj : j = 0 <;> simp [iterEvents, countEv, countEv_append, hj]

theorem countEv_iter_drained (j : Nat) :
    countEv LifeEvent.finalDrained (iterEvents j) = 0 := by
  by_cases hj : j = 0 <;> simp [iterEvents, countEv, countEv_append, hj]

theorem countEv_iter_file (j : Nat) :
    countEv LifeEvent.fileSaved (iterEvents j) = 0 := by
  by_cases hj : j = 0 <;> simp [iterEvents, countEv, countEv_append, hj]

theorem countEv_flatten_stop (k : Nat) :
    ∀ K : Nat,
      countEv (LifeEvent.stopObserved k)
          (List.flatten ((List.range K).map iterEvents))
        = if k < K then 1 else 0 := by
  intro K
  induction K with
  | zero => simp [countEv]
  | succ n ih =>
    rw [List.range_succ, List.map_append, List.flatten_append, countEv_append,
      ih]
    have h1 : List.flatten (List.map iterEvents [n]) = iterEvents n := by simp
    rw [h1, countEv_iter_stop n k]
    rcases Nat.lt_trichotomy k n with h | h | h
    · rw [if_pos h, if_neg (by omega), if_pos (by omega)]
    · rw [if_neg (by omega), if_pos (by omega), if_pos (by omega)]
    · rw [if_neg (by omega), if_neg (by omega), if_neg (by omega)]

theorem countEv_flatten_zero (e : LifeEvent)
    (h : ∀ j, countEv e (iterEvents j) = 0) :
    ∀ K : Nat,
      countEv e (List.flatten ((List.range K).map iterEvents)) = 0 := by
  intro K
  induction K with
  | zero => simp [countEv]
  | succ n ih =>
    rw [List.range_succ, List.map_append, List.flatten_append, countEv_append,
      ih]
    have h1 : List.flatten (List.map iterEvents [n]) = iterEvents n := by simp
    rw [h1, h n]

-- ===================================================================
-- claims
-- ===================================================================

/-- C1, counterexample: the claim predicts that after one completed
4-byte transfer against an 8-byte segment the tracker holds
`BytesToEndSegment = 8 - (1 * 4 mod 8) = 4`; the loop leaves the field at
its initial value 8, because no statement of the while body ever updates
the segment bookkeeping. -/
theorem c1_counterexample :
    (runLoop 2 (fun _ => [1, 1, 1, 1]) (fun _ => 4)
        (initStreamInfo 4 8 0 2 4) 1).info.BytesToEndSegment = 8 ∧
    (runLoop 2 (fun _ => [1, 1, 1, 1]) (fun _ => 4)
        (initStreamInfo 4 8 0 2 4) 1).info.BytesToEndSegment ≠ 8 - 1 * 4 % 8 := by
  decide

/-- C1, amended: across any number of loop iterations the streaming loop
leaves `BytesToEndSegment`, `BytesToEndTail`, `Segment` and
`SegmentCountDown` unchanged at their initial values; the segment and
tail bookkeeping described by the claim is never performed by the loop
body, which only rewrites `WorkBuffer`. -/
theorem c1_segment_fields_untouched (M K : Nat) (td : Nat → List Int)
    (bt : Nat → Int) (si : StreamInfo) :
    (runLoop M td bt si K).info.BytesToEndSegment = si.BytesToEndSegment ∧
    (runLoop M td bt si K).info.BytesToEndTail = si.BytesToEndTail ∧
    (runLoop M td bt si K).info.Segment = si.Segment ∧
    (runLoop M td bt si K).info.SegmentCountDown = si.SegmentCountDown := by
  have h := (runLoop_proj M td bt si K).2.2.2.2.1
  rw [h]
  exact ⟨rfl, rfl, rfl, rfl⟩

/-- C2, counterexample: in save mode with target length 6 and buffers of
length 4, the iteration that would write samples 4 and 5 takes the
skip path (2 * 4 > 6), so the sink keeps its initial zeros there and does
not contain the first 6 samples transferred. -/
theorem c2_counterexample :
    (saveSession 6 [[1, 2, 3, 4], [5, 6, 7, 8]]).sink
      ≠ ([[1, 2, 3, 4], [5, 6, 7, 8]] : List (List Int)).flatten.take 6 ∧
    (saveSession 6 [[1, 2, 3, 4], [5, 6, 7, 8]]).sink = [1, 2, 3, 4, 0, 0] := by
  decide

/-- C2, amended: in save-raw mode the sink holds exactly the first L
samples transferred, in order, with no gaps and no overlap, provided the
target length L is an exact multiple of the buffer length b (the code
skips the final partial chunk otherwise, leaving the sink tail zero). -/
theorem c2_save_exact_multiple (m b : Nat) (bufs : List (List Int))
    (hb : 1 ≤ b) (hlen : ∀ buf ∈ bufs, buf.length = b)
    (hm : m ≤ bufs.length) :
    (saveSession (m * b) bufs).sink = bufs.flatten.take (m * b) := by
  have h := runSave_sink_fill b m hb bufs 0
    { sink := List.replicate (m * b) 0, stopSet := false, stopCalls := 0
      mpTotalData := 0, mpLoopCount := 0 }
    hlen (Nat.zero_le m) (by simp) (by simpa using hm)
  simpa [saveSession] using h

/-- C2, witness: target length 4 with two buffers of length 2 gives a
sink equal to the concatenation of both buffers. -/
theorem c2_save_exact_multiple_witness :
    (saveSession 4 [[1, 2], [3, 4]]).sink
      = ([[1, 2], [3, 4]] : List (List Int)).flatten.take 4 :=
  c2_save_exact_multiple 2 2 [[1, 2], [3, 4]] (by decide) (by decide)
    (by decide)

/-- C3, counterexample: a save-mode call past the target (loop count 2,
buffer length 4, target 4) completes without touching either shared
counter, and an average-mode call whose period does not divide the
buffer length (period 2, buffer length 3) raises on the resize of the
non-owning frombuffer view and so never reaches the counter updates;
both contradict the claim that every call, in every mode and for every
loop count, updates the counters as its last action. -/
theorem c3_counterexample :
    (DoAnalysisChecked 2 99 [1, 2, 3, 4] (DAMode.save 4) 1
        ⟨[9, 9, 9, 9], false, 0, 7, 5⟩).map DAState.mpLoopCount ≠ some 2 ∧
    (DoAnalysisChecked 2 99 [1, 2, 3, 4] (DAMode.save 4) 1
        ⟨[9, 9, 9, 9], false, 0, 7, 5⟩).map DAState.mpTotalData ≠ some 99 ∧
    DoAnalysisChecked 1 0 [1, 2, 3] (DAMode.average 2) 1
        ⟨[0, 0], false, 0, 0, 0⟩ = none := by
  decide

/-- C3, amended: a `DoAnalysis` call updates the shared cumulative-bytes
and loop-count counters as its last action whenever it completes without
taking a save-mode early-return path.  The early-return paths skip the
updates, and a call that raises inside the mode body (zero update
interval or period, a reshape period that does not divide the buffer
length, an out-of-range or mismatched sink write) terminates with an
exception without ever reaching them, so it produces no updated state at
all. -/
theorem c3_counters_updated_unless_skipped (k u : Nat) (g : Int)
    (buf : List Int) (mode : DAMode) (st st2 : DAState)
    (h : skipsCounters k buf.length mode = false)
    (h2 : DoAnalysisChecked k g buf mode u st = some st2) :
    st2.mpTotalData = g ∧ st2.mpLoopCount = k := by
  cases mode with
  | average p =>
    by_cases hu : u = 0
    · simp [DoAnalysisChecked, hu] at h2
    · by_cases hk : k % u = 0
      · by_cases hp : p = 0
        · simp [DoAnalysisChecked, hu, hk, hp] at h2
        · by_cases hd : p ∣ buf.length
          · by_cases hl : p < st.sink.length
            · simp [DoAnalysisChecked, hu, hk, hp, hd, hl] at h2
            · simp [DoAnalysisChecked, hu, hk, hp, hd, hl] at h2
              rw [← h2]
              exact ⟨rfl, rfl⟩
          · simp [DoAnalysisChecked, hu, hk, hp, hd] at h2
      · simp [DoAnalysisChecked, hu, hk] at h2
        rw [← h2]
        exact ⟨rfl, rfl⟩
  | passthrough =>
    by_cases hu : u = 0
    · simp [DoAnalysisChecked, hu] at h2
    · by_cases hk : k % u = 0
      · by_cases hl : buf.length < st.sink.length
        · simp [DoAnalysisChecked, hu, hk, hl] at h2
        · simp [DoAnalysisChecked, hu, hk, hl] at h2
          rw [← h2]
          exact ⟨rfl, rfl⟩
      · simp [DoAnalysisChecked, hu, hk] at h2
        rw [← h2]
        exact ⟨rfl, rfl⟩
  | save sbs =>
    have hns : ¬ sbs < k * buf.length := by simpa [skipsCounters] using h
    by_cases hz : k = 0 ∧ 0 < buf.length
    · simp [DoAnalysisChecked, hns, hz] at h2
    · by_cases hl : st.sink.length < k * buf.length
      · simp [DoAnalysisChecked, hns, hz, hl] at h2
      · simp [DoAnalysisChecked, hns, hz, hl] at h2
        rw [← h2]
        exact ⟨rfl, rfl⟩
  | saveAverage p sbs =>
    have hns : ¬ sbs < k * p := by simpa [skipsCounters] using h
    by_cases hp : p = 0
    · simp [DoAnalysisChecked, hp] at h2
    · by_cases hz : k = 0
      · simp [DoAnalysisChecked, hp, hns, hz] at h2
      · by_cases hd : p ∣ buf.length
        · by_cases hl : st.sink.length < k * p
          · simp [DoAnalysisChecked, hp, hns, hz, hd, hl] at h2
          · simp [DoAnalysisChecked, hp, hns, hz, hd, hl] at h2
            rw [← h2]
            exact ⟨rfl, rfl⟩
        · simp [DoAnalysisChecked, hp, hns, hz, hd] at h2

/-- C3, witness: a save-mode call within the target (1 * 4 below 8)
completes and updates both shared counters. -/
theorem c3_counters_updated_witness :
    (⟨[1, 2, 3, 4, 0, 0, 0, 0], false, 0, 55, 1⟩ : DAState).mpTotalData = 55 ∧
    (⟨[1, 2, 3, 4, 0, 0, 0, 0], false, 0, 55, 1⟩ : DAState).mpLoopCount = 1 :=
  c3_counters_updated_unless_skipped 1 1 55 [1, 2, 3, 4] (DAMode.save 8)
    ⟨[0, 0, 0, 0, 0, 0, 0, 0], false, 0, 0, 0⟩
    ⟨[1, 2, 3, 4, 0, 0, 0, 0], false, 0, 55, 1⟩ (by decide) (by decide)

/-- C4, counterexample: with target 4 and buffer length 4 the stop event
is set at loop count 1 and set again by the skipping call at loop count
2, so the set operation runs twice, not exactly once as the claim states
(the flag state itself stays true). -/
theorem c4_counterexample :
    (saveSession 4 [[1, 2, 3, 4], [5, 6, 7, 8]]).stopCalls = 2 ∧
    (saveSession 4 [[1, 2, 3, 4], [5, 6, 7, 8]]).stopCalls ≠ 1 ∧
    (saveSession 4 [[1, 2, 3, 4], [5, 6, 7, 8]]).stopSet = true := by
  decide

/-- C4, amended: once a save or save-average call lies past the target,
it writes nothing: the sink and both shared counters are unchanged and
the call returns early; the stop flag ends up set, but the call reaches
this state by invoking the (idempotent) stop set again, incrementing the
invocation count, rather than by detecting the flag and skipping the
set. -/
theorem c4_stop_noop_after_full (k u L p : Nat) (g : Int) (buf : List Int)
    (st : DAState) :
    (L < k * buf.length →
      (DoAnalysis k g buf (DAMode.save L) u st).sink = st.sink ∧
      (DoAnalysis k g buf (DAMode.save L) u st).mpTotalData = st.mpTotalData ∧
      (DoAnalysis k g buf (DAMode.save L) u st).mpLoopCount = st.mpLoopCount ∧
      (DoAnalysis k g buf (DAMode.save L) u st).stopSet = true ∧
      (DoAnalysis k g buf (DAMode.save L) u st).stopCalls
        = st.stopCalls + 1) ∧
    (L < k * p →
      (DoAnalysis k g buf (DAMode.saveAverage p L) u st).sink = st.sink ∧
      (DoAnalysis k g buf (DAMode.saveAverage p L) u st).mpTotalData
        = st.mpTotalData ∧
      (DoAnalysis k g buf (DAMode.saveAverage p L) u st).mpLoopCount
        = st.mpLoopCount ∧
      (DoAnalysis k g buf (DAMode.saveAverage p L) u st).stopSet = true ∧
      (DoAnalysis k g buf (DAMode.saveAverage p L) u st).stopCalls
        = st.stopCalls + 1) := by
  constructor
  · intro h
    rw [doAnalysis_save_skip_state k u L g buf st h]
    exact ⟨rfl, rfl, rfl, rfl, rfl⟩
  · intro h
    rw [doAnalysis_saveAverage_skip_state k u p L g buf st h]
    exact ⟨rfl, rfl, rfl, rfl, rfl⟩

/-- C4, witness: a skipping save call (2 * 4 past target 4) and a
skipping save-average call (2 * 3 past target 4) leave the sink of an
already-stopped state unchanged. -/
theorem c4_stop_noop_after_full_witness :
    (DoAnalysis 2 (0 : Int) [9, 9, 9, 9] (DAMode.save 4) 1
        ⟨[1, 2, 3, 4], true, 1, 5, 1⟩).sink = [1, 2, 3, 4] ∧
    (DoAnalysis 2 (0 : Int) [9, 9, 9, 9] (DAMode.save 4) 1
        ⟨[1, 2, 3, 4], true, 1, 5, 1⟩).stopSet = true ∧
    (DoAnalysis 2 (0 : Int) [9, 9, 9, 9] (DAMode.saveAverage 3 4) 1
        ⟨[1, 2, 3, 4], true, 1, 5, 1⟩).sink = [1, 2, 3, 4] := by
  have h := c4_stop_noop_after_full 2 1 4 3 0 [9, 9, 9, 9]
    ⟨[1, 2, 3, 4], true, 1, 5, 1⟩
  exact ⟨(h.1 (by decide)).1, (h.1 (by decide)).2.2.2.1, (h.2 (by decide)).1⟩

/-- C5, counterexample: a transfer status of -5 (negative, not the
stream-completed code) makes the loop break, but the error event is not
set on this path, contradicting the claim that the error signal is
raised. -/
theorem c5_counterexample :
    (transferCheck (-5)).breakLoop = true ∧
    (transferCheck (-5)).errorSet = false := by
  decide

/-- C5, amended: a negative status from the transfer call other than the
stream-completed code terminates the loop but does not raise the error
signal on that path; the stream-completed code is not treated as an
error and the loop proceeds; the error signal is raised instead on the
transfer-status-wait failure path. -/
theorem c5_break_without_error (status : Int) :
    (status < 0 → status ≠ CS_STM_COMPLETED →
      (transferCheck status).breakLoop = true ∧
      (transferCheck status).errorSet = false) ∧
    (transferCheck CS_STM_COMPLETED).breakLoop = false ∧
    (transferCheck CS_STM_COMPLETED).errorSet = false ∧
    (0 ≤ status → (transferCheck status).breakLoop = false) ∧
    (statusPhaseFailure status).breakLoop = true ∧
    (statusPhaseFailure status).errorSet = true := by
  refine ⟨?_, by decide, by decide, ?_, rfl, rfl⟩
  · intro h1 h2
    simp only [transferCheck]
    rw [if_pos h1, if_neg h2]
    exact ⟨rfl, rfl⟩
  · intro h
    simp only [transferCheck]
    rw [if_neg (by omega)]

/-- C5, witness: status -7 breaks the loop without raising the error
event. -/
theorem c5_break_without_error_witness :
    (transferCheck (-7)).breakLoop = true ∧
    (transferCheck (-7)).errorSet = false :=
  (c5_break_without_error (-7)).1 (by decide) (by decide)

/-- C6, counterexample: when the third buffer allocation fails, the code
frees buffer 1 and then buffer 2, that is in acquisition order, not in
the reverse-acquisition order the claim states. -/
theorem c6_counterexample :
    allocFailCleanup 3 ≠ claimedAllocFailCleanup 3 ∧
    allocFailCleanup 3
      = [CleanupAction.freeBuffer 1, CleanupAction.freeBuffer 2,
         CleanupAction.freeSystem, CleanupAction.setErrorSignal] := by
  decide

/-- C6, amended: when allocation of streaming buffer k (1 to 4) fails,
the k-1 already-allocated buffers are released in acquisition order
(earliest first), all before the device handle is freed, and the error
signal is set last. -/
theorem c6_cleanup_acquisition_order (k : Nat) (h1 : 1 ≤ k) (h4 : k ≤ 4) :
    allocFailCleanup k
      = ((List.range (k - 1)).map fun i => CleanupAction.freeBuffer (i + 1))
        ++ [CleanupAction.freeSystem, CleanupAction.setErrorSignal] := by
  interval_cases k <;> decide

/-- C6, witness: failure at buffer 3 frees buffers 1 and 2 in that order
before freeing the system and setting the error. -/
theorem c6_cleanup_acquisition_order_witness :
    allocFailCleanup 3
      = ((List.range 2).map fun i => CleanupAction.freeBuffer (i + 1))
        ++ [CleanupAction.freeSystem, CleanupAction.setErrorSignal] :=
  c6_cleanup_acquisition_order 3 (by decide) (by decide)

/-- C7: the slot event trace of a session with M worker slots and K loop
iterations (including the final synchronous drain) replays without any
submit into a busy slot: every submission is preceded by a join of that
slot whenever its previous task is still registered, for all loop
counts. -/
theorem c7_join_before_submit (M K : Nat) :
    replayOk (List.replicate M false) (streamSlotTrace M K) = true := by
  rw [streamSlotTrace, replay_slotTrace]
  rfl

/-- C8: in every iteration the loop targets transfer buffer
loopCount mod 4; the dispatch trace after K iterations contains exactly
one entry per iteration after the first, and the entry recorded during
the iteration with cursor i+1 carries worker slot i mod M (that is,
(loopCount - 1) mod M) and the work-buffer copy of the data transferred
in the previous iteration; no analysis is dispatched in the very first
iteration. -/
theorem c8_rotation_and_dispatch (M K : Nat) (td : Nat → List Int)
    (bt : Nat → Int) (si : StreamInfo) :
    (runLoop M td bt si K).transferTargets
      = (List.range K).map (fun j => j % 4) ∧
    (runLoop M td bt si K).dispatches
      = (List.range (K - 1)).map (fun i => (i % M, i + 1, td i)) ∧
    (runLoop M td bt si 1).dispatches = [] := by
  refine ⟨(runLoop_proj M td bt si K).2.2.2.2.2.2,
    (runLoop_proj M td bt si K).2.2.2.2.2.1, ?_⟩
  have h := (runLoop_proj M td bt si 1).2.2.2.2.2.1
  simpa using h

/-- C9: on a normal run the lifecycle trace starts with ready then
started, observes the stop event exactly once per loop iteration, and
ends with the exit signal, set exactly once, after the final drain and
(in save modes) the result file write. -/
theorem c9_lifecycle_order (K : Nat) (sv : Bool) :
    (streamLifeTrace K sv).head? = some LifeEvent.readySet ∧
    (streamLifeTrace K sv).tail.head? = some LifeEvent.startedSet ∧
    (∀ k, k < K →
      countEv (LifeEvent.stopObserved k) (streamLifeTrace K sv) = 1) ∧
    (streamLifeTrace K sv).getLast? = some LifeEvent.exitSet ∧
    countEv LifeEvent.exitSet (streamLifeTrace K sv) = 1 ∧
    countEv LifeEvent.finalDrained (streamLifeTrace K sv) = 1 ∧
    (sv = true → countEv LifeEvent.fileSaved (streamLifeTrace K sv) = 1) := by
  refine ⟨rfl, rfl, ?_, ?_, ?_, ?_, ?_⟩
  · intro k hk
    cases sv <;>
      simp [streamLifeTrace, countEv_append, countEv, countEv_flatten_stop,
        hk]
  · rw [streamLifeTrace]
    exact List.getLast?_concat _
  · cases sv <;>
      simp [streamLifeTrace, countEv_append, countEv,
        countEv_flatten_zero LifeEvent.exitSet countEv_iter_exit]
  · cases sv <;>
      simp [streamLifeTrace, countEv_append, countEv,
        countEv_flatten_zero LifeEvent.finalDrained countEv_iter_drained]
  · intro hsv
    subst hsv
    simp [streamLifeTrace, countEv_append, countEv,
      countEv_flatten_zero LifeEvent.fileSaved countEv_iter_file]

/-- C9, witness: a two-iteration save-mode run ends in the exit event,
observes the stop event once in iteration 1, and writes the file once. -/
theorem c9_lifecycle_order_witness :
    (streamLifeTrace 2 true).getLast? = some LifeEvent.exitSet ∧
    countEv (LifeEvent.stopObserved 1) (streamLifeTrace 2 true) = 1 ∧
    countEv LifeEvent.fileSaved (streamLifeTrace 2 true) = 1 := by
  have h := c9_lifecycle_order 2 true
  exact ⟨h.2.2.2.1, h.2.2.1 1 (by decide), h.2.2.2.2.2.2 rfl⟩

/-- C10: when the transfer call fails with a non-completed negative
status in the very first iteration, the loop breaks before any dispatch,
so the local `mode` is still unbound; the post-loop finalization then
fails with an unbound-local error and the exit event is never set. -/
theorem c10_first_iteration_unbound_mode (status : Int) (hneg : status < 0)
    (hne : status ≠ CS_STM_COMPLETED) :
    firstIterExit status = some { mode := none, exitEventSet := false } ∧
    postLoopFinalize { mode := none, exitEventSet := false }
      = Except.error unboundLocalMsg ∧
    ({ mode := none, exitEventSet := false } : PostLoopLocals).exitEventSet
      = false := by
  refine ⟨?_, rfl, rfl⟩
  have hb : (transferCheck status).breakLoop = true := by
    simp only [transferCheck]
    rw [if_pos hneg, if_neg hne]
  simp [firstIterExit, hb]

/-- C10, witness: status -31 on the first iteration leaves `mode`
unbound, the finalization fails, and the exit event stays clear. -/
theorem c10_first_iteration_unbound_mode_witness :
    firstIterExit (-31) = some { mode := none, exitEventSet := false } ∧
    postLoopFinalize { mode := none, exitEventSet := false }
      = Except.error unboundLocalMsg ∧
    ({ mode := none, exitEventSet := false } : PostLoopLocals).exitEventSet
      = false :=
  c10_first_iteration_unbound_mode (-31) (by decide) (by decide)
